import Mathlib

/-!
# A shallow embedding of the power-bi-radar visual's core (src/src/visual.ts)

The embedding follows `Visual` in `src/src/visual.ts`.  The domain-model
classes (`Radar`, `Sector`, `Ring`, `Blip`, `ColourGenerator`) are declared
in files of the repository that are not part of `src/`; where a definition
below stands in for one of them, its doc comment starts
`Modelled from the spec:` and is faithful to the specification's wording.

Conventions:
* JavaScript values appearing in table cells are modelled by `Value`
  (a string, a boolean, or `undefined`).
* `Array.prototype.indexOf` returns `-1` when the element is absent, and
  indexing an array at `-1` yields `undefined`; both are modelled exactly
  (`jsIndexOf`, `rowGet`).
* The uncaught `TypeError` thrown when `ringMap[ringName]` is `undefined`
  and `.order` is read (inside the `_.sortBy` key function) is modelled by
  `transformData` returning `Except.error TransformError.typeError`: the
  sort evaluates its key on every row, so the transform aborts exactly when
  some row's ring cell is not a key of `ringMap`.
* `_.sortBy` is lodash's stable sort by key; it is embedded as
  `List.insertionSort` with the reflexive key comparison, which is a stable
  sort, and its stability is proved below rather than assumed.
* `Math.random()` is modelled by an explicit stream of draws in `[0, 1)`.
-/

namespace RadarVisual

/-- A JavaScript value held in a table cell: a string, a boolean, or
`undefined` (the result of reading a missing property or index). -/
inductive Value where
  | str (s : String)
  | bool (b : Bool)
  | undefined
deriving DecidableEq

/-- A column of the data view's table: `column.roles` is a JS object whose
keys name the data roles bound to the column; `visual.ts` line 76 reads
`Object.keys(column.roles)[0]`, its first key. -/
structure Column where
  roles : List String
deriving DecidableEq

/-- The slice of a Power BI `dataView` that `transformData` reads: the
table's columns and rows, and (Modelled from the spec: the customization
store) `dataView.metadata.objects.colourSelector.$instances`, a partial map
from sector id to a user-chosen fill colour.  `objects := none` models a
metadata object with no `"objects"` key (line 104). -/
structure DataView where
  columns : List Column
  rows : List (List Value)
  objects : Option (List (Value × String))

/-- `Array.prototype.indexOf`: the index of the first occurrence, `-1`
when absent. -/
def jsIndexOf (l : List (Option String)) (s : String) : Int :=
  match l.findIdx? (fun x => x == some s) with
  | some n => (n : Int)
  | none => -1

/-- JS array indexing `row[i]`: `undefined` when `i` is negative or past
the end. -/
def rowGet (row : List Value) (i : Int) : Value :=
  if i < 0 then Value.undefined else row.getD i.toNat Value.undefined

/-- Modelled from the spec: a Ring is a maturity band with a `name`, a
1-indexed `order` and a `colour`; the constructor calls at
`visual.ts` lines 68-71 fix all of its fields. -/
structure Ring where
  name : String
  order : Nat
  colour : String
deriving DecidableEq

def accelerateRing : Ring := ⟨"Accelerate", 1, "#C7C7C7"⟩

def progressRing : Ring := ⟨"Progress", 2, "#A3A3A3"⟩

def monitorRing : Ring := ⟨"Monitor", 3, "#7A7A7A"⟩

def pauseRing : Ring := ⟨"Pause", 4, "#525252"⟩

/-- The fixed ring set, in ring order (`visual.ts` lines 67-72). -/
def fixedRings : List Ring := [accelerateRing, progressRing, monitorRing, pauseRing]

/-- The `ringMap` object of `transformData` (lines 67-72) as a lookup:
`ringMap[v]` is `undefined` (`none`) unless `v` is one of the four fixed
ring names. -/
def ringMap (v : Value) : Option Ring :=
  match v with
  | Value.str "Accelerate" => some accelerateRing
  | Value.str "Progress" => some progressRing
  | Value.str "Monitor" => some monitorRing
  | Value.str "Pause" => some pauseRing
  | _ => none

/-- Modelled from the spec: a Blip holds the row's name, ring reference,
isNew flag and description (constructor call at line 112; the non-owning
back-reference to the owning Sector is left implicit). -/
structure Blip where
  name : Value
  ring : Ring
  isNew : Value
  description : Value
deriving DecidableEq

/-- Modelled from the spec: a Sector has an `id` derived deterministically
from its name (embedded as the name itself), a `name`, a `colour` and the
ordered list of Blips it owns. -/
structure Sector where
  name : Value
  id : Value
  colour : String
  blips : List Blip
deriving DecidableEq

/-- Modelled from the spec: the Radar aggregate root owns the Sectors in
insertion order and exposes the fixed Ring set (used by
`calculateRingRadii` and `plotRightSidebar` as `this.radar.rings`). -/
structure Radar where
  sectors : List Sector
  rings : List Ring
deriving DecidableEq

/-- Modelled from the spec: the Radar's flattened read-only view of all
Blips across all Sectors. -/
def Radar.blips (r : Radar) : List Blip :=
  (r.sectors.map (fun s => s.blips)).flatten

/-- Modelled from the spec: `ColourGenerator.getColour`, producing a fresh
colour per call; embedded as a function of how many colours were already
generated in this transformation pass. -/
def generatedColour (n : Nat) : String :=
  "generated-colour-" ++ toString n

/-- The stored-customization lookup of lines 104-107: the user-chosen fill
colour for a sector id, when `"objects"` is present and the id is a key of
`colourSelector.$instances`. -/
def storedColour (dv : DataView) (id : Value) : Option String :=
  match dv.objects with
  | none => none
  | some l => (l.find? (fun p => decide (p.1 = id))).map (fun p => p.2)

/-- `sectors[sectorName].addBlip(blip)` (line 112): append the blip to the
unique sector with that name. -/
def addBlipToSector (sectorName : Value) (b : Blip) : List Sector → List Sector
  | [] => []
  | s :: rest =>
    if s.name = sectorName then { s with blips := s.blips ++ [b] } :: rest
    else s :: addBlipToSector sectorName b rest

/-- The accumulator of the row loop (lines 92-113): the sectors discovered
so far, in first-appearance order, and how many colours the generator has
produced. -/
structure TransformState where
  sectors : List Sector
  colourCount : Nat
deriving DecidableEq

/-- The key `_.sortBy` evaluates at line 87: `ringMap[o[ringIndex]].order`.
The `none` default is never used by `transformData`, which aborts first
when some row's ring cell is not a `ringMap` key. -/
def ringOrderKey (ringIndex : Int) (row : List Value) : Nat :=
  match ringMap (rowGet row ringIndex) with
  | some ring => ring.order
  | none => 0

/-- The Blip built from one row (line 112): the row's name, its ring
resolved through `ringMap`, the isNew flag and the description.  The
`getD` default is never used by `transformData`, which aborts first when
the ring cell is not a `ringMap` key. -/
def mkBlip (nameIndex descriptionIndex ringIndex isNewIndex : Int) (row : List Value) : Blip :=
  ⟨rowGet row nameIndex, (ringMap (rowGet row ringIndex)).getD accelerateRing,
   rowGet row isNewIndex, rowGet row descriptionIndex⟩

/-- One iteration of the `table.rows.forEach` body (lines 92-113). -/
def processRow (dv : DataView) (nameIndex descriptionIndex sectorIndex ringIndex isNewIndex : Int)
    (st : TransformState) (row : List Value) : TransformState :=
  let sectorName := rowGet row sectorIndex
  let blip := mkBlip nameIndex descriptionIndex ringIndex isNewIndex row
  if (st.sectors.find? (fun s => decide (s.name = sectorName))).isSome then
    { st with sectors := addBlipToSector sectorName blip st.sectors }
  else
    match storedColour dv sectorName with
    | some c =>
      { sectors := st.sectors ++ [⟨sectorName, sectorName, c, [blip]⟩],
        colourCount := st.colourCount }
    | none =>
      { sectors := st.sectors ++ [⟨sectorName, sectorName, generatedColour st.colourCount, [blip]⟩],
        colourCount := st.colourCount + 1 }

/-- The error that aborts `transformData`: the uncaught JS `TypeError`
thrown at line 87 when `ringMap[o[ringIndex]]` is `undefined`. -/
inductive TransformError where
  | typeError
deriving DecidableEq

deriving instance DecidableEq for Except

/-- The column-to-role map of lines 75-77:
`table.columns.map(column => Object.keys(column.roles)[0])`. -/
def columnMapOf (dv : DataView) : List (Option String) :=
  dv.columns.map (fun c => c.roles.head?)

/-- The stable ring-order sort of lines 86-88 (`_.sortBy`), embedded as an
insertion sort by the key of line 87. -/
def sortRows (ringIndex : Int) (rows : List (List Value)) : List (List Value) :=
  List.insertionSort (fun a b => ringOrderKey ringIndex a ≤ ringOrderKey ringIndex b) rows

/-- The numeric value of a decimal digit character, `none` otherwise. -/
def charDigit? (c : Char) : Option Nat :=
  if c = '0' then some 0 else if c = '1' then some 1 else if c = '2' then some 2
  else if c = '3' then some 3 else if c = '4' then some 4 else if c = '5' then some 5
  else if c = '6' then some 6 else if c = '7' then some 7 else if c = '8' then some 8
  else if c = '9' then some 9 else none

/-- The decimal value of a digit string, `none` when any character is not
a digit. -/
def digitsVal (cs : List Char) : Option Nat :=
  cs.foldl
    (fun acc ch =>
      match acc, charDigit? ch with
      | some n, some d => some (n * 10 + d)
      | _, _ => none)
    (some 0)

/-- The array index a JS object key denotes, when it is one: a canonical
integer string (all digits, no leading zero except `"0"` itself) whose
value is below 2^32 − 1.  ECMAScript enumerates exactly these keys
numerically first in `for...in`. -/
def jsKeyToArrayIndex (v : Value) : Option Nat :=
  match v with
  | Value.str s =>
    match s.data with
    | [] => none
    | c :: cs =>
      if c = '0' ∧ cs ≠ [] then none
      else
        match digitsVal (c :: cs) with
        | some n => if n < 4294967295 then some n else none
        | none => none
  | _ => none

/-- The `for (let index in sectors)` key order (ECMAScript
OrdinaryOwnPropertyKeys): keys that are canonical array indices first, in
ascending numeric order, then the remaining keys in insertion order. -/
def forInKeys (keys : List Value) : List Value :=
  List.insertionSort
      (fun a b => (jsKeyToArrayIndex a).getD 0 ≤ (jsKeyToArrayIndex b).getD 0)
      (keys.filter (fun v => (jsKeyToArrayIndex v).isSome))
    ++ keys.filter (fun v => ! (jsKeyToArrayIndex v).isSome)

/-- The sector list in the order the `for (let index in sectors)` loop of
lines 115-117 visits the `sectors` object's keys: sectors whose name is a
canonical array-index string first, in ascending numeric order, then the
rest in insertion (first-appearance) order. -/
def forInReorder (sectors : List Sector) : List Sector :=
  List.insertionSort
      (fun a b => (jsKeyToArrayIndex a.name).getD 0 ≤ (jsKeyToArrayIndex b.name).getD 0)
      (sectors.filter (fun s => (jsKeyToArrayIndex s.name).isSome))
    ++ sectors.filter (fun s => ! (jsKeyToArrayIndex s.name).isSome)

/-- `Visual.transformData` (lines 60-122).  Resolves the role indices,
sorts the rows by ring order (aborting with the modelled `TypeError` when
any row's ring cell is not a fixed ring name), then scans the sorted rows
grouping them into sectors keyed by sector name; the
`for (let index in sectors)` loop of lines 115-117 then adds the sectors
to the radar in JS object key order (`forInReorder`): integer-like names
ascending first, then first-appearance order.  Sector angles are
represented functionally (`sectorStartAngle`/`sectorEndAngle` below), so
the `radar.setSectorAngles()` call at line 119 leaves no trace in the
returned structure. -/
def transformData (dv : DataView) : Except TransformError Radar :=
  let columnMap := columnMapOf dv
  let nameIndex := jsIndexOf columnMap "name"
  let descriptionIndex := jsIndexOf columnMap "description"
  let sectorIndex := jsIndexOf columnMap "sector"
  let ringIndex := jsIndexOf columnMap "ring"
  let isNewIndex := jsIndexOf columnMap "isNew"
  if dv.rows.all (fun r => (ringMap (rowGet r ringIndex)).isSome) then
    let sorted := sortRows ringIndex dv.rows
    let st := sorted.foldl (processRow dv nameIndex descriptionIndex sectorIndex ringIndex isNewIndex) ⟨[], 0⟩
    Except.ok { sectors := forInReorder st.sectors, rings := fixedRings }
  else
    Except.error TransformError.typeError

/-- The sector names seen in a value sequence, in first-appearance order,
skipping names already in `seen`: the reference order against which the
transform's sector discovery order is checked. -/
def firstSeenAux (seen : List Value) : List Value → List Value
  | [] => []
  | v :: rest => if v ∈ seen then firstSeenAux seen rest else v :: firstSeenAux (v :: seen) rest

/-- The blips of the first sector named `v` (the sector `sectors[v]`
denotes), or `[]` when there is none. -/
def sectorBlipsOf (sectors : List Sector) (v : Value) : List Blip :=
  ((sectors.find? (fun s => decide (s.name = v))).map (fun s => s.blips)).getD []

/-! ## Geometry and the layout engine -/

/-- A point in the radar-centered coordinate space. -/
structure Point where
  x : ℝ
  y : ℝ

/-- `Visual.getViewBoxSize` (lines 127-129): always `100`. -/
def getViewBoxSize : ℝ := 100

/-- `Visual.calculateCenter` (lines 134-141). -/
noncomputable def calculateCenter : Point :=
  ⟨getViewBoxSize / 2, getViewBoxSize / 2⟩

/-- `Visual.convertRelativeCoordinates` (lines 161-168). -/
noncomputable def convertRelativeCoordinates (coordinates : Point) : Point :=
  ⟨coordinates.x + calculateCenter.x, calculateCenter.y - coordinates.y⟩

/-- An angle/distance pair as `polarToCartesian` consumes it. -/
structure Polar where
  distance : ℝ
  angle : ℝ

/-- `Visual.polarToCartesian` (lines 174-179): the angle is taken clockwise
from the positive y axis. -/
noncomputable def polarToCartesian (polar : Polar) : Point :=
  ⟨polar.distance * Real.sin polar.angle, polar.distance * Real.cos polar.angle⟩

/-- The inner and outer radii of a ring. -/
structure RingRadii where
  inner : ℝ
  outer : ℝ

/-- `Visual.calculateRingRadii` (lines 185-193). -/
noncomputable def calculateRingRadii (radar : Radar) (ring : Ring) : RingRadii :=
  let maxRadius := getViewBoxSize / 2
  let ringCount : ℝ := radar.rings.length
  ⟨maxRadius * ((ring.order : ℝ) - 1) / ringCount,
   maxRadius * (ring.order : ℝ) / ringCount⟩

/-- `Visual.calculateBlipRadius` (lines 403-405): always `2`. -/
def calculateBlipRadius : ℝ := 2

/-- `Visual.distanceBetweenPoints` (lines 303-315):
`Math.pow(Math.pow(dx, 2) + Math.pow(dy, 2), 0.5)`; the outer power is the
real (rpow) power at exponent `1/2`. -/
noncomputable def distanceBetweenPoints (coordinates1 coordinates2 : Point) : ℝ :=
  ((coordinates1.x - coordinates2.x) ^ 2 + (coordinates1.y - coordinates2.y) ^ 2) ^ ((1 : ℝ) / 2)

/-- `Visual.coordinatesAreFree` (lines 287-296): every previously placed
blip is further away than `blipRadius * 2.1`. -/
def coordinatesAreFree (coordinates : Point) (allCoordinates : List Point) : Prop :=
  ∀ c ∈ allCoordinates, distanceBetweenPoints coordinates c > calculateBlipRadius * 2.1

/-- Modelled from the spec: `Radar.setSectorAngles` (called at line 119) is
not under `src/`; per §4.4 sector `i` of `N` receives
`[i·2π/N, (i+1)·2π/N)`.  The assignment is represented functionally: the
start angle of the sector at index `i`. -/
noncomputable def sectorStartAngle (radar : Radar) (i : Nat) : ℝ :=
  (i : ℝ) * (2 * Real.pi / (radar.sectors.length : ℝ))

/-- Modelled from the spec: the end angle of the sector at index `i`
(see `sectorStartAngle`). -/
noncomputable def sectorEndAngle (radar : Radar) (i : Nat) : ℝ :=
  ((i : ℝ) + 1) * (2 * Real.pi / (radar.sectors.length : ℝ))

/-- One loop iteration's candidate (lines 269-272): a random angle between
`min_angle` and `max_angle`, a random distance between `min_distance` and
`max_distance` (`draw` is the pair of `Math.random()` results), converted
to Cartesian coordinates. -/
noncomputable def drawCandidate (min_angle max_angle min_distance max_distance : ℝ)
    (draw : ℝ × ℝ) : Point :=
  let angle := draw.1 * (max_angle - min_angle) + min_angle
  let distance := draw.2 * (max_distance - min_distance) + min_distance
  polarToCartesian ⟨distance, angle⟩

open Classical in
/-- The `do`/`while` loop of `generateBlipCoordinates` (lines 266-278),
with `Math.random()` modelled by a stream `rnd` of draws and the mutable
`attemptCount` by the argument `i` (`attemptCount = i` on entry to the
`i+1`-st iteration, and `i + 1` after the `attemptCount++` of line 274).
The guard `attemptCount >+ 10` of line 275 parses as
`attemptCount > (+10)`, i.e. `attemptCount > 10`, and is embedded as
written.  The real-valued loop guards are classically decidable. -/
noncomputable def genLoop (min_angle max_angle min_distance max_distance : ℝ)
    (allCoordinates : List Point) (rnd : Nat → ℝ × ℝ) (i : Nat) : Point × Nat :=
  if h10 : i + 1 > 10 then (drawCandidate min_angle max_angle min_distance max_distance (rnd i), i + 1)
  else if coordinatesAreFree (drawCandidate min_angle max_angle min_distance max_distance (rnd i))
      allCoordinates then
    (drawCandidate min_angle max_angle min_distance max_distance (rnd i), i + 1)
  else genLoop min_angle max_angle min_distance max_distance allCoordinates rnd (i + 1)
termination_by 10 - i
decreasing_by simp_wf; omega

open Classical in
/-- `Visual.generateBlipCoordinates` (lines 255-281).  The sector's
`startAngle`/`endAngle` fields are passed explicitly (see
`sectorStartAngle`); alongside the accepted coordinates the embedding also
returns the final `attemptCount`, which the source keeps in a local. -/
noncomputable def generateBlipCoordinates (radar : Radar) (startAngle endAngle : ℝ)
    (ring : Ring) (allCoordinates : List Point) (rnd : Nat → ℝ × ℝ) : Point × Nat :=
  let min_angle := startAngle + Real.pi / 16
  let max_angle := endAngle - Real.pi / 16
  let ringRadii := calculateRingRadii radar ring
  let min_distance0 := ringRadii.inner * 1.1
  let max_distance := ringRadii.outer * 0.9
  let min_distance := if min_distance0 = 0 then max_distance / 2 else min_distance0
  genLoop min_angle max_angle min_distance max_distance allCoordinates rnd 0

/-- The iteration order of `setBlipCoordinates` (lines 241-247): every
blip of every sector, tagged with its sector's index (needed for the
functional sector angles). -/
def blipJobs (radar : Radar) : List (Nat × Blip) :=
  (radar.sectors.enum.map (fun p => p.2.blips.map (fun b => (p.1, b)))).flatten

/-- The body of `setBlipCoordinates` (lines 235-248): place each blip in
turn, pushing its accepted coordinates onto `allCoordinates`; `rnd k` is
the slice of the `Math.random()` stream consumed by the `k`-th placement.
Each placement's accepted coordinates and final attempt count are
recorded in order. -/
noncomputable def placeBlips (radar : Radar) (rnd : Nat → Nat → ℝ × ℝ) :
    List (Nat × Blip) → List Point → Nat → List (Point × Nat)
  | [], _, _ => []
  | (si, b) :: rest, allCoordinates, k =>
    let r := generateBlipCoordinates radar (sectorStartAngle radar si) (sectorEndAngle radar si)
      b.ring allCoordinates (rnd k)
    r :: placeBlips radar rnd rest (allCoordinates ++ [r.1]) (k + 1)

/-- `Visual.setBlipCoordinates` (lines 235-248). -/
noncomputable def setBlipCoordinates (radar : Radar) (rnd : Nat → Nat → ℝ × ℝ) :
    List (Point × Nat) :=
  placeBlips radar rnd (blipJobs radar) [] 0

/-! ## The renderer, modelled as the data it draws -/

/-- One `path` drawn by `plotSector` (lines 217-229): an annular wedge for
a (sector, ring) pair. -/
structure Wedge where
  sectorId : Value
  fill : String
  innerRadius : ℝ
  outerRadius : ℝ
  startAngle : ℝ
  endAngle : ℝ

/-- `Visual.plotSector` (lines 210-230): one wedge per ring of the radar. -/
noncomputable def plotSector (radar : Radar) (i : Nat) (sector : Sector) : List Wedge :=
  radar.rings.map (fun ring =>
    { sectorId := sector.id
      fill := ring.colour
      innerRadius := (calculateRingRadii radar ring).inner
      outerRadius := (calculateRingRadii radar ring).outer
      startAngle := sectorStartAngle radar i
      endAngle := sectorEndAngle radar i })

/-- `Visual.plotSectors` (lines 198-203): the wedges of every sector. -/
noncomputable def plotSectors (radar : Radar) : List Wedge :=
  (radar.sectors.enum.map (fun p => plotSector radar p.1 p.2)).flatten

/-- One collapsible group of the left sidebar (lines 417-450): the sector's
button label and colour, and its blips' names in order. -/
structure SidebarGroup where
  label : Value
  colour : String
  items : List Value
deriving DecidableEq

/-- `Visual.plotLeftSidebar` (lines 411-454), as the list of groups it
builds (one per sector, in radar order). -/
def plotLeftSidebar (radar : Radar) : List SidebarGroup :=
  radar.sectors.map (fun s => ⟨s.name, s.colour, s.blips.map (fun b => b.name)⟩)

/-- One `li` of the right sidebar's legend (lines 472-477). -/
structure LegendItem where
  colour : String
  label : String
deriving DecidableEq

/-- `Visual.plotRightSidebar` (lines 466-478): one legend item per ring of
`radar.rings`, in ring order. -/
def plotRightSidebar (radar : Radar) : List LegendItem :=
  radar.rings.map (fun ring => ⟨ring.colour, ring.name⟩)

/-! ## Concrete inputs used by counterexamples and witnesses -/

/-- The five role columns in their documented order. -/
def standardColumns : List Column :=
  [⟨["name"]⟩, ⟨["description"]⟩, ⟨["sector"]⟩, ⟨["ring"]⟩, ⟨["isNew"]⟩]

/-- A data view with the five role columns and no rows. -/
def emptyRowDataView : DataView := ⟨standardColumns, [], none⟩

/-- The radar `transformData` yields on an empty row set. -/
def emptyRadar : Radar := ⟨[], fixedRings⟩

/-- A data view whose middle row names the ring `"Banana"`, which is not
one of the four fixed ring names. -/
def unknownRingDataView : DataView :=
  ⟨standardColumns,
   [[Value.str "A", Value.str "a desc", Value.str "X", Value.str "Accelerate", Value.bool false],
    [Value.str "B", Value.str "b desc", Value.str "X", Value.str "Banana", Value.bool false],
    [Value.str "C", Value.str "c desc", Value.str "Y", Value.str "Progress", Value.bool true]],
   none⟩

/-- The spec's worked example: rows A (sector X, ring Accelerate),
B (sector X, ring Pause), C (sector Y, ring Progress), in that order. -/
def exampleDataView : DataView :=
  ⟨standardColumns,
   [[Value.str "A", Value.str "a desc", Value.str "X", Value.str "Accelerate", Value.bool false],
    [Value.str "B", Value.str "b desc", Value.str "X", Value.str "Pause", Value.bool false],
    [Value.str "C", Value.str "c desc", Value.str "Y", Value.str "Progress", Value.bool false]],
   none⟩

/-- The radar the worked example transforms into: sector X first (blips A
then B, in ring order), then sector Y (blip C). -/
def exampleRadar : Radar :=
  ⟨[⟨Value.str "X", Value.str "X", generatedColour 0,
     [⟨Value.str "A", accelerateRing, Value.bool false, Value.str "a desc"⟩,
      ⟨Value.str "B", pauseRing, Value.bool false, Value.str "b desc"⟩]⟩,
    ⟨Value.str "Y", Value.str "Y", generatedColour 1,
     [⟨Value.str "C", progressRing, Value.bool false, Value.str "c desc"⟩]⟩],
   fixedRings⟩

/-- A data view whose schema lacks the `name` role column. -/
def missingNameColumnDataView : DataView :=
  ⟨[⟨["description"]⟩, ⟨["sector"]⟩, ⟨["ring"]⟩, ⟨["isNew"]⟩],
   [[Value.str "a desc", Value.str "X", Value.str "Accelerate", Value.bool true]],
   none⟩

/-- A data view whose schema lacks the `ring` role column. -/
def missingRingColumnDataView : DataView :=
  ⟨[⟨["name"]⟩, ⟨["description"]⟩, ⟨["sector"]⟩, ⟨["isNew"]⟩],
   [[Value.str "A", Value.str "a desc", Value.str "X", Value.bool false]],
   none⟩

/-- A two-sector radar used to instantiate hypotheses about sector
angles. -/
def twoSectorRadar : Radar :=
  ⟨[⟨Value.str "X", Value.str "X", generatedColour 0, []⟩,
    ⟨Value.str "Y", Value.str "Y", generatedColour 1, []⟩], fixedRings⟩

/-- A radar with one sector owning two blips, used to instantiate the
pairwise spacing property. -/
def twoBlipRadar : Radar :=
  ⟨[⟨Value.str "X", Value.str "X", generatedColour 0,
     [⟨Value.str "A", accelerateRing, Value.bool false, Value.str "a"⟩,
      ⟨Value.str "B", pauseRing, Value.bool false, Value.str "b"⟩]⟩], fixedRings⟩

/-- A placeholder job used only as a `getD` default. -/
def defaultJob : Nat × Blip :=
  (0, ⟨Value.undefined, accelerateRing, Value.undefined, Value.undefined⟩)

/-- Rows whose sector names are the integer-like strings "10" and "2",
first seen in that order. -/
def numericSectorDataView : DataView :=
  ⟨standardColumns,
   [[Value.str "A", Value.str "a desc", Value.str "10", Value.str "Accelerate", Value.bool false],
    [Value.str "B", Value.str "b desc", Value.str "2", Value.str "Progress", Value.bool false]],
   none⟩

/-- What the code produces for `numericSectorDataView`: the `for...in`
enumeration puts the array-index-like keys in ascending numeric order, so
sector "2" comes out before sector "10" although "10" was discovered
first (and was assigned the first generated colour). -/
def numericSectorRadar : Radar :=
  ⟨[⟨Value.str "2", Value.str "2", generatedColour 1,
     [⟨Value.str "B", progressRing, Value.bool false, Value.str "b desc"⟩]⟩,
    ⟨Value.str "10", Value.str "10", generatedColour 0,
     [⟨Value.str "A", accelerateRing, Value.bool false, Value.str "a desc"⟩]⟩],
   fixedRings⟩

/-- A radar with 32 sectors: its equal arcs are `2π/32 = π/16` wide, too
narrow for the `π/16` blip margins on both sides. -/
def thirtyTwoSectorRadar : Radar :=
  ⟨(List.range 32).map
    (fun i => ⟨Value.str (toString i), Value.str (toString i), generatedColour i, []⟩),
   fixedRings⟩

/-! ## C10 -/

/-- C10: `getViewBoxSize` always returns 100 and `calculateCenter` always
returns (50, 50), and `calculateRingRadii` computes both radii from the
fixed overall radius `getViewBoxSize / 2 = 50`, independently of the
drawing surface's width, height and padding (none of which these
definitions consume). -/
theorem ringGeometryUsesFixedViewBox :
    getViewBoxSize = 100 ∧
    calculateCenter = ⟨50, 50⟩ ∧
    ∀ (radar : Radar) (ring : Ring),
      calculateRingRadii radar ring =
        ⟨50 * ((ring.order : ℝ) - 1) / (radar.rings.length : ℝ),
         50 * (ring.order : ℝ) / (radar.rings.length : ℝ)⟩ := by
  refine ⟨rfl, ?_, fun radar ring => ?_⟩
  · simp only [calculateCenter, getViewBoxSize, Point.mk.injEq]
    norm_num
  · simp only [calculateRingRadii, getViewBoxSize, RingRadii.mk.injEq]
    norm_num

/-! ## C4 -/

/-- C4: for ring order `k` out of `K = radar.rings.length` rings and
overall radius `R = getViewBoxSize / 2`, `calculateRingRadii` returns
`inner = R·(k−1)/K` and `outer = R·k/K`; consecutive rings share a
boundary (`inner(k) = outer(k−1)`), the outermost ring reaches `R`, ring 1
has inner radius 0, and every ring has width exactly `R/K`. -/
theorem ringRadiiFormula (radar : Radar) (ring ring' : Ring)
    (hK : 0 < radar.rings.length) :
    (calculateRingRadii radar ring).inner
      = getViewBoxSize / 2 * ((ring.order : ℝ) - 1) / (radar.rings.length : ℝ) ∧
    (calculateRingRadii radar ring).outer
      = getViewBoxSize / 2 * (ring.order : ℝ) / (radar.rings.length : ℝ) ∧
    (ring'.order = ring.order + 1 →
      (calculateRingRadii radar ring').inner = (calculateRingRadii radar ring).outer) ∧
    (ring.order = radar.rings.length →
      (calculateRingRadii radar ring).outer = getViewBoxSize / 2) ∧
    (ring.order = 1 → (calculateRingRadii radar ring).inner = 0) ∧
    (calculateRingRadii radar ring).outer - (calculateRingRadii radar ring).inner
      = getViewBoxSize / 2 / (radar.rings.length : ℝ) := by
  have hK0 : ((radar.rings.length : ℝ)) ≠ 0 :=
    Nat.cast_ne_zero.mpr (Nat.pos_iff_ne_zero.mp hK)
  refine ⟨rfl, rfl, ?_, ?_, ?_, ?_⟩
  · intro h
    simp only [calculateRingRadii, h]
    push_cast
    ring_nf
  · intro h
    simp only [calculateRingRadii, h]
    field_simp
    ring
  · intro h
    simp only [calculateRingRadii, h]
    norm_num
  · simp only [calculateRingRadii]
    field_simp
    ring

/-- C4's hypotheses hold at a concrete input: the fixed radar ring set with
the consecutive rings Progress (order 2) and Monitor (order 3). -/
theorem ringRadiiFormulaWitness :
    0 < emptyRadar.rings.length ∧
    ((calculateRingRadii emptyRadar progressRing).inner
      = getViewBoxSize / 2 * ((progressRing.order : ℝ) - 1) / (emptyRadar.rings.length : ℝ) ∧
    (calculateRingRadii emptyRadar progressRing).outer
      = getViewBoxSize / 2 * (progressRing.order : ℝ) / (emptyRadar.rings.length : ℝ) ∧
    (monitorRing.order = progressRing.order + 1 →
      (calculateRingRadii emptyRadar monitorRing).inner
        = (calculateRingRadii emptyRadar progressRing).outer) ∧
    (progressRing.order = emptyRadar.rings.length →
      (calculateRingRadii emptyRadar progressRing).outer = getViewBoxSize / 2) ∧
    (progressRing.order = 1 → (calculateRingRadii emptyRadar progressRing).inner = 0) ∧
    (calculateRingRadii emptyRadar progressRing).outer
        - (calculateRingRadii emptyRadar progressRing).inner
      = getViewBoxSize / 2 / (emptyRadar.rings.length : ℝ)) :=
  ⟨by decide, ringRadiiFormula emptyRadar progressRing monitorRing (by decide)⟩

/-! ## C9 -/

/-- C9: the empty row set transforms without error into a radar with no
sectors and no blips; the sector layer and the left sidebar are then
empty, while the right sidebar still lists all four fixed rings in ring
order. -/
theorem emptyRowSetDegradesGracefully :
    transformData emptyRowDataView = Except.ok emptyRadar ∧
    emptyRadar.sectors = [] ∧
    Radar.blips emptyRadar = [] ∧
    plotSectors emptyRadar = [] ∧
    plotLeftSidebar emptyRadar = [] ∧
    plotRightSidebar emptyRadar =
      [⟨"#C7C7C7", "Accelerate"⟩, ⟨"#A3A3A3", "Progress"⟩,
       ⟨"#7A7A7A", "Monitor"⟩, ⟨"#525252", "Pause"⟩] := by
  refine ⟨by decide, rfl, rfl, rfl, by decide, by decide⟩

/-! ## C1 -/

/-- C1 counterexample: on `unknownRingDataView` — whose middle row has the
ring name `"Banana"` — the transform does not skip the bad row and keep
the rest: it aborts with the modelled `TypeError` (thrown by the `_.sortBy`
key at line 87) and produces no Radar at all. -/
theorem unknownRingRowNotSkipped :
    transformData unknownRingDataView = Except.error TransformError.typeError := by
  decide

/-- C1 as amended: whenever any row's ring cell is not one of the four
fixed ring names, the whole transform aborts with the error, processing no
rows. -/
theorem transformAbortsOnUnknownRing (dv : DataView)
    (h : (dv.rows.all fun r =>
      (ringMap (rowGet r (jsIndexOf (columnMapOf dv) "ring"))).isSome) = false) :
    transformData dv = Except.error TransformError.typeError := by
  simp only [transformData, h, Bool.false_eq_true, if_false]

/-- C1's amended hypothesis holds at `unknownRingDataView`. -/
theorem transformAbortsOnUnknownRingWitness :
    (unknownRingDataView.rows.all fun r =>
      (ringMap (rowGet r (jsIndexOf (columnMapOf unknownRingDataView) "ring"))).isSome) = false ∧
    transformData unknownRingDataView = Except.error TransformError.typeError :=
  ⟨by decide, transformAbortsOnUnknownRing unknownRingDataView (by decide)⟩

/-! ## C6 -/

/-- C6 counterexample: the schema of `missingNameColumnDataView` lacks the
required `name` role column, yet the transform does not fail at all: it
succeeds, producing a radar whose one blip has `undefined` as its name
(JS `row[-1]`). -/
theorem missingNameColumnNotFatal :
    transformData missingNameColumnDataView =
      Except.ok ⟨[⟨Value.str "X", Value.str "X", generatedColour 0,
                  [⟨Value.undefined, accelerateRing, Value.bool true, Value.str "a desc"⟩]⟩],
                 fixedRings⟩ := by
  decide

/-- C6 as amended: there is no `SchemaError`; the only missing role column
the code reacts to is `ring`, and the reaction is the aborting `TypeError`
of the ring-sort (whenever at least one row exists), not a typed schema
error; other missing role columns go undetected. -/
theorem missingRingColumnAborts (dv : DataView)
    (hring : jsIndexOf (columnMapOf dv) "ring" = -1) (hrows : dv.rows ≠ []) :
    transformData dv = Except.error TransformError.typeError := by
  apply transformAbortsOnUnknownRing
  rw [hring]
  cases hr : dv.rows with
  | nil => exact absurd hr hrows
  | cons r rest =>
    simp only [List.all_cons, Bool.and_eq_false_iff]
    left
    simp [rowGet, ringMap]

/-- C6's amended hypotheses hold at `missingRingColumnDataView`. -/
theorem missingRingColumnAbortsWitness :
    jsIndexOf (columnMapOf missingRingColumnDataView) "ring" = -1 ∧
    missingRingColumnDataView.rows ≠ [] ∧
    transformData missingRingColumnDataView = Except.error TransformError.typeError :=
  ⟨by decide, by decide, missingRingColumnAborts missingRingColumnDataView (by decide) (by decide)⟩

/-! ## C5 -/

/-- Consecutive multiples of a nonnegative step tile an interval from 0. -/
theorem iUnion_Ico_multiples (w : ℝ) (hw : 0 ≤ w) (n : Nat) :
    (⋃ i ∈ Finset.range n, Set.Ico ((i : ℝ) * w) (((i : ℝ) + 1) * w))
      = Set.Ico 0 ((n : ℝ) * w) := by
  induction n with
  | zero => simp
  | succ n ih =>
    rw [Finset.range_succ, Finset.set_biUnion_insert, ih, Set.union_comm,
      Set.Ico_union_Ico_eq_Ico (by positivity) (by nlinarith)]
    push_cast
    ring_nf

/-- C5: with `N = radar.sectors.length > 0` sectors, sector `i` receives
exactly the arc `[i·2π/N, (i+1)·2π/N)`: every arc has width `2π/N`, the
arcs are pairwise disjoint, and their union is exactly `[0, 2π)`.  The
assignment is a pure function of the radar's sector list, so it is
deterministic and involves no randomness. -/
theorem sectorAnglesPartition (radar : Radar) (hN : 0 < radar.sectors.length) :
    (∀ i : Nat, sectorStartAngle radar i = (i : ℝ) * (2 * Real.pi / (radar.sectors.length : ℝ)) ∧
      sectorEndAngle radar i = ((i : ℝ) + 1) * (2 * Real.pi / (radar.sectors.length : ℝ))) ∧
    (∀ i : Nat, sectorEndAngle radar i - sectorStartAngle radar i
      = 2 * Real.pi / (radar.sectors.length : ℝ)) ∧
    (∀ i j : Nat, i ≠ j →
      Disjoint (Set.Ico (sectorStartAngle radar i) (sectorEndAngle radar i))
        (Set.Ico (sectorStartAngle radar j) (sectorEndAngle radar j))) ∧
    (⋃ i ∈ Finset.range radar.sectors.length,
        Set.Ico (sectorStartAngle radar i) (sectorEndAngle radar i))
      = Set.Ico 0 (2 * Real.pi) := by
  have hN0 : ((radar.sectors.length : ℝ)) ≠ 0 :=
    Nat.cast_ne_zero.mpr (Nat.pos_iff_ne_zero.mp hN)
  have hw : 0 < 2 * Real.pi / (radar.sectors.length : ℝ) := by
    have := Real.pi_pos
    positivity
  have key : ∀ i j : Nat, i < j →
      Disjoint (Set.Ico (sectorStartAngle radar i) (sectorEndAngle radar i))
        (Set.Ico (sectorStartAngle radar j) (sectorEndAngle radar j)) := by
    intro i j hij
    rw [Set.disjoint_left]
    intro x hx hx'
    have h1 : x < sectorEndAngle radar i := hx.2
    have h2 : sectorStartAngle radar j ≤ x := hx'.1
    have hcast : ((i : ℝ) + 1) ≤ (j : ℝ) := by exact_mod_cast hij
    have h3 : sectorEndAngle radar i ≤ sectorStartAngle radar j := by
      unfold sectorEndAngle sectorStartAngle
      nlinarith
    linarith
  refine ⟨fun i => ⟨rfl, rfl⟩, fun i => by unfold sectorEndAngle sectorStartAngle; ring, ?_, ?_⟩
  · intro i j hij
    rcases Nat.lt_or_ge i j with h | h
    · exact key i j h
    · exact (key j i (lt_of_le_of_ne h (Ne.symm hij))).symm
  · have := iUnion_Ico_multiples (2 * Real.pi / (radar.sectors.length : ℝ)) (le_of_lt hw)
      radar.sectors.length
    unfold sectorStartAngle sectorEndAngle
    rw [this]
    field_simp

/-- C5's hypothesis holds at a concrete two-sector radar, whose arcs tile
`[0, 2π)`. -/
theorem sectorAnglesPartitionWitness :
    (⋃ i ∈ Finset.range twoSectorRadar.sectors.length,
        Set.Ico (sectorStartAngle twoSectorRadar i) (sectorEndAngle twoSectorRadar i))
      = Set.Ico 0 (2 * Real.pi) :=
  (sectorAnglesPartition twoSectorRadar (by decide)).2.2.2

/-! ## The attempt loop: C2 -/

/-- From attempt index `i`, the loop's final attempt count never exceeds
`max (i + 1) 11`; in particular the loop always terminates and always
returns coordinates. -/
theorem genLoop_count_le (mA xA mD xD : ℝ) (all : List Point) (rnd : Nat → ℝ × ℝ) (i : Nat) :
    (genLoop mA xA mD xD all rnd i).2 ≤ max (i + 1) 11 := by
  rw [genLoop]
  by_cases h10 : i + 1 > 10
  · rw [dif_pos h10]
    simp
  · rw [dif_neg h10]
    by_cases hfree : coordinatesAreFree (drawCandidate mA xA mD xD (rnd i)) all
    · rw [if_pos hfree]
      simp
    · rw [if_neg hfree]
      have ih := genLoop_count_le mA xA mD xD all rnd (i + 1)
      omega
termination_by 10 - i
decreasing_by simp_wf; omega

/-- A placement that finished with at most 10 attempts exited through the
`while` condition, so its accepted coordinates passed the free check. -/
theorem genLoop_free_of_count_le (mA xA mD xD : ℝ) (all : List Point) (rnd : Nat → ℝ × ℝ)
    (i : Nat) :
    (genLoop mA xA mD xD all rnd i).2 ≤ 10 →
    coordinatesAreFree (genLoop mA xA mD xD all rnd i).1 all := by
  rw [genLoop]
  by_cases h10 : i + 1 > 10
  · rw [dif_pos h10]
    intro h
    exfalso
    simp only [] at h
    omega
  · rw [dif_neg h10]
    by_cases hfree : coordinatesAreFree (drawCandidate mA xA mD xD (rnd i)) all
    · rw [if_pos hfree]
      intro _
      exact hfree
    · rw [if_neg hfree]
      exact genLoop_free_of_count_le mA xA mD xD all rnd (i + 1)
termination_by 10 - i
decreasing_by simp_wf; omega

/-- What the loop returns is always one of the drawn candidates. -/
theorem genLoop_returns_candidate (mA xA mD xD : ℝ) (all : List Point) (rnd : Nat → ℝ × ℝ)
    (i : Nat) :
    ∃ j, (genLoop mA xA mD xD all rnd i).1 = drawCandidate mA xA mD xD (rnd j) := by
  rw [genLoop]
  by_cases h10 : i + 1 > 10
  · rw [dif_pos h10]
    exact ⟨i, rfl⟩
  · rw [dif_neg h10]
    by_cases hfree : coordinatesAreFree (drawCandidate mA xA mD xD (rnd i)) all
    · rw [if_pos hfree]
      exact ⟨i, rfl⟩
    · rw [if_neg hfree]
      exact genLoop_returns_candidate mA xA mD xD all rnd (i + 1)
termination_by 10 - i
decreasing_by simp_wf; omega

/-- When every candidate fails the free check, the loop started at attempt
index `i ≤ 10` runs until the guard fires: the final attempt count is 11,
i.e. eleven candidates were drawn from index 0. -/
theorem genLoop_count_eq_eleven (mA xA mD xD : ℝ) (all : List Point) (rnd : Nat → ℝ × ℝ)
    (hover : ∀ j, ¬ coordinatesAreFree (drawCandidate mA xA mD xD (rnd j)) all)
    (i : Nat) (hi : i ≤ 10) :
    (genLoop mA xA mD xD all rnd i).2 = 11 := by
  rw [genLoop]
  by_cases h10 : i + 1 > 10
  · rw [dif_pos h10]
    simp only []
    omega
  · rw [dif_neg h10]
    rw [if_neg (hover i)]
    exact genLoop_count_eq_eleven mA xA mD xD all rnd hover (i + 1) (by omega)
termination_by 10 - i
decreasing_by simp_wf; omega

/-- A point can never pass the free check against a list containing the
point itself: its distance to itself is 0, not more than `2 · 2.1`. -/
theorem not_free_of_self_mem (p : Point) (all : List Point) (hp : p ∈ all) :
    ¬ coordinatesAreFree p all := by
  intro h
  have hgt := h p hp
  have hd : distanceBetweenPoints p p = 0 := by
    simp only [distanceBetweenPoints, sub_self]
    norm_num
  rw [hd] at hgt
  norm_num [calculateBlipRadius] at hgt

/-- C2 (the code as written): the loop always terminates with at most 11
drawn candidates — not 10 — and the bound is attained: placing a blip of
the innermost ring in the sector `[0, π)` with every draw landing on an
already-occupied spot makes the loop draw 11 candidates before accepting
an overlapping one (`attemptCount >+ 10` parses as `> 10`, allowing one
attempt more than the comment's "ten successive attempts"). -/
theorem attemptBudgetIsElevenNotTen :
    (∀ (mA xA mD xD : ℝ) (all : List Point) (rnd : Nat → ℝ × ℝ),
      (genLoop mA xA mD xD all rnd 0).2 ≤ 11) ∧
    (generateBlipCoordinates emptyRadar 0 Real.pi accelerateRing
        [polarToCartesian ⟨5.625, Real.pi / 16⟩] (fun _ => (0, 0))).2 = 11 := by
  constructor
  · intro mA xA mD xD all rnd
    have := genLoop_count_le mA xA mD xD all rnd 0
    omega
  · have hradii : calculateRingRadii emptyRadar accelerateRing = ⟨0, 12.5⟩ := by
      simp only [calculateRingRadii, getViewBoxSize, emptyRadar, fixedRings, accelerateRing]
      norm_num
    simp only [generateBlipCoordinates, hradii]
    norm_num
    refine genLoop_count_eq_eleven _ _ _ _ _ _ (fun j => ?_) 0 (by omega)
    apply not_free_of_self_mem
    simp only [drawCandidate, List.mem_singleton]
    norm_num

/-! ## C3 -/

/-- A candidate drawn from `[0,1)²` randoms lies in the candidate angular
and radial ranges. -/
theorem drawCandidate_in_range (mA xA mD xD : ℝ) (draw : ℝ × ℝ)
    (h1 : 0 ≤ draw.1) (h2 : draw.1 < 1) (h3 : 0 ≤ draw.2) (h4 : draw.2 < 1)
    (hA : mA ≤ xA) (hD : mD ≤ xD) :
    ∃ distance angle : ℝ, mA ≤ angle ∧ angle ≤ xA ∧ mD ≤ distance ∧ distance ≤ xD ∧
      drawCandidate mA xA mD xD draw = polarToCartesian ⟨distance, angle⟩ := by
  refine ⟨draw.2 * (xD - mD) + mD, draw.1 * (xA - mA) + mA, ?_, ?_, ?_, ?_, rfl⟩
  · nlinarith
  · nlinarith
  · nlinarith
  · nlinarith

/-- C3 as amended: provided the sector is at least `π/8` wide — true
whenever at most 16 distinct sectors are present, and necessary: see the
narrow-sector counterexample — every coordinate pair returned by
`generateBlipCoordinates` is the Cartesian image of a polar pair whose
angle lies in `[startAngle + π/16, endAngle − π/16]` and whose distance
lies between the ring's `inner·1.1` (or `outer·0.9/2` when
`inner·1.1 = 0`) and `outer·0.9`; consequently the blip falls strictly
between its ring's inner and outer radius and strictly inside its
sector's angular range.  The other hypotheses say that the random draws
lie in `[0, 1)` and that the ring's radii are the usual nonneg/positive
nested pair (true of all four fixed rings). -/
theorem blipCoordinatesWithinRingAndSector (radar : Radar) (startAngle endAngle : ℝ)
    (ring : Ring) (all : List Point) (rnd : Nat → ℝ × ℝ)
    (hrnd : ∀ j, 0 ≤ (rnd j).1 ∧ (rnd j).1 < 1 ∧ 0 ≤ (rnd j).2 ∧ (rnd j).2 < 1)
    (hang : startAngle + Real.pi / 16 ≤ endAngle - Real.pi / 16)
    (hinner : 0 ≤ (calculateRingRadii radar ring).inner)
    (houter : 0 < (calculateRingRadii radar ring).outer)
    (hfit : (calculateRingRadii radar ring).inner * 1.1 ≠ 0 →
      (calculateRingRadii radar ring).inner * 1.1 ≤ (calculateRingRadii radar ring).outer * 0.9) :
    ∃ distance angle : ℝ,
      startAngle + Real.pi / 16 ≤ angle ∧
      angle ≤ endAngle - Real.pi / 16 ∧
      (if (calculateRingRadii radar ring).inner * 1.1 = 0
        then (calculateRingRadii radar ring).outer * 0.9 / 2
        else (calculateRingRadii radar ring).inner * 1.1) ≤ distance ∧
      distance ≤ (calculateRingRadii radar ring).outer * 0.9 ∧
      (generateBlipCoordinates radar startAngle endAngle ring all rnd).1
        = polarToCartesian ⟨distance, angle⟩ ∧
      (calculateRingRadii radar ring).inner < distance ∧
      distance < (calculateRingRadii radar ring).outer ∧
      startAngle < angle ∧
      angle < endAngle := by
  have hpi := Real.pi_pos
  have hDle : (if (calculateRingRadii radar ring).inner * 1.1 = 0
      then (calculateRingRadii radar ring).outer * 0.9 / 2
      else (calculateRingRadii radar ring).inner * 1.1)
      ≤ (calculateRingRadii radar ring).outer * 0.9 := by
    by_cases h0 : (calculateRingRadii radar ring).inner * 1.1 = 0
    · rw [if_pos h0]
      nlinarith
    · rw [if_neg h0]
      exact hfit h0
  obtain ⟨j, hj⟩ := genLoop_returns_candidate (startAngle + Real.pi / 16)
    (endAngle - Real.pi / 16)
    (if (calculateRingRadii radar ring).inner * 1.1 = 0
      then (calculateRingRadii radar ring).outer * 0.9 / 2
      else (calculateRingRadii radar ring).inner * 1.1)
    ((calculateRingRadii radar ring).outer * 0.9) all rnd 0
  obtain ⟨hr1, hr2, hr3, hr4⟩ := hrnd j
  obtain ⟨d, a, hba, haa, hbd, had, heq⟩ :=
    drawCandidate_in_range _ _ _ _ (rnd j) hr1 hr2 hr3 hr4 hang hDle
  refine ⟨d, a, hba, haa, hbd, had, hj.trans heq, ?_, by nlinarith, by linarith, by linarith⟩
  by_cases h0 : (calculateRingRadii radar ring).inner * 1.1 = 0
  · have hinner0 : (calculateRingRadii radar ring).inner = 0 := by
      rcases mul_eq_zero.mp h0 with h | h
      · exact h
      · norm_num at h
    rw [if_pos h0] at hbd
    rw [hinner0]
    nlinarith
  · rw [if_neg h0] at hbd
    have hne : (calculateRingRadii radar ring).inner ≠ 0 := by
      intro h
      exact h0 (by rw [h]; ring)
    have hpos : 0 < (calculateRingRadii radar ring).inner := lt_of_le_of_ne hinner (Ne.symm hne)
    nlinarith

/-- C3's hypotheses hold at a concrete input: the innermost ring in a
half-circle sector, with every random draw equal to 1/2. -/
theorem blipCoordinatesWithinRingAndSectorWitness :
    ∃ distance angle : ℝ,
      0 + Real.pi / 16 ≤ angle ∧
      angle ≤ Real.pi - Real.pi / 16 ∧
      (if (calculateRingRadii emptyRadar accelerateRing).inner * 1.1 = 0
        then (calculateRingRadii emptyRadar accelerateRing).outer * 0.9 / 2
        else (calculateRingRadii emptyRadar accelerateRing).inner * 1.1) ≤ distance ∧
      distance ≤ (calculateRingRadii emptyRadar accelerateRing).outer * 0.9 ∧
      (generateBlipCoordinates emptyRadar 0 Real.pi accelerateRing []
          (fun _ => (1 / 2, 1 / 2))).1
        = polarToCartesian ⟨distance, angle⟩ ∧
      (calculateRingRadii emptyRadar accelerateRing).inner < distance ∧
      distance < (calculateRingRadii emptyRadar accelerateRing).outer ∧
      0 < angle ∧
      angle < Real.pi :=
  blipCoordinatesWithinRingAndSector emptyRadar 0 Real.pi accelerateRing []
    (fun _ => (1 / 2, 1 / 2))
    (fun _ => by norm_num)
    (by have := Real.pi_pos; linarith)
    (by norm_num [calculateRingRadii, getViewBoxSize, emptyRadar, fixedRings, accelerateRing])
    (by norm_num [calculateRingRadii, getViewBoxSize, emptyRadar, fixedRings, accelerateRing])
    (fun h => absurd
      (by norm_num [calculateRingRadii, getViewBoxSize, emptyRadar, fixedRings, accelerateRing]) h)

/-! ## C8 -/

/-- `placeBlips` produces one placement per job. -/
theorem placeBlips_length (radar : Radar) (rnd : Nat → Nat → ℝ × ℝ) (jobs : List (Nat × Blip))
    (acc : List Point) (k : Nat) :
    (placeBlips radar rnd jobs acc k).length = jobs.length := by
  induction jobs generalizing acc k with
  | nil => rfl
  | cons jb rest ih =>
    cases jb with
    | mk si b => simp [placeBlips, ih]

/-- The `j`-th placement is generated against exactly the coordinates
accumulated so far: the initial accumulator followed by the first `j`
placed coordinates. -/
theorem placeBlips_getD (radar : Radar) (rnd : Nat → Nat → ℝ × ℝ) (pd : Point × Nat)
    (jobs : List (Nat × Blip)) (acc : List Point) (k : Nat) (j : Nat) (hj : j < jobs.length) :
    (placeBlips radar rnd jobs acc k).getD j pd
      = generateBlipCoordinates radar
          (sectorStartAngle radar (jobs.getD j defaultJob).1)
          (sectorEndAngle radar (jobs.getD j defaultJob).1)
          (jobs.getD j defaultJob).2.ring
          (acc ++ ((placeBlips radar rnd jobs acc k).take j).map Prod.fst)
          (rnd (k + j)) := by
  induction jobs generalizing acc k j with
  | nil => exact absurd hj (by simp)
  | cons jb rest ih =>
    cases jb with
    | mk si b =>
      cases j with
      | zero => simp [placeBlips, List.getD]
      | succ n =>
        have hn : n < rest.length := by simpa using hj
        have hk : k + (n + 1) = k + 1 + n := by omega
        simp only [placeBlips, List.getD_cons_succ, List.take_succ_cons, List.map_cons]
        rw [ih _ _ n hn, hk, List.append_assoc, List.singleton_append]

/-- Euclidean distance is symmetric in its two points. -/
theorem distanceBetweenPoints_comm (p q : Point) :
    distanceBetweenPoints p q = distanceBetweenPoints q p := by
  simp only [distanceBetweenPoints]
  congr 1
  ring

/-- `generateBlipCoordinates` restated through `genLoop_free_of_count_le`:
at most 10 attempts means the accepted coordinates passed the free
check. -/
theorem generateBlip_free_of_count_le (radar : Radar) (s e : ℝ) (ring : Ring)
    (all : List Point) (rnd : Nat → ℝ × ℝ) :
    (generateBlipCoordinates radar s e ring all rnd).2 ≤ 10 →
    coordinatesAreFree (generateBlipCoordinates radar s e ring all rnd).1 all :=
  genLoop_free_of_count_le _ _ _ _ all rnd 0

/-- C8: for every pair of blips placed in one `setBlipCoordinates` run,
either their coordinates are further apart than `2.1 × blipRadius`, or the
later placement exhausted its attempt budget (final count above 10) and
was accepted despite failing the free check against the coordinates placed
before it. -/
theorem placedBlipsSpacedOrExhausted (radar : Radar) (rnd : Nat → Nat → ℝ × ℝ) (i j : Nat)
    (hij : i < j) (hj : j < (setBlipCoordinates radar rnd).length) :
    calculateBlipRadius * 2.1 <
        distanceBetweenPoints ((setBlipCoordinates radar rnd).getD i (⟨0, 0⟩, 0)).1
          ((setBlipCoordinates radar rnd).getD j (⟨0, 0⟩, 0)).1 ∨
      (10 < ((setBlipCoordinates radar rnd).getD j (⟨0, 0⟩, 0)).2 ∧
        ¬ coordinatesAreFree ((setBlipCoordinates radar rnd).getD j (⟨0, 0⟩, 0)).1
            (((setBlipCoordinates radar rnd).take j).map Prod.fst)) := by
  have hlen : (setBlipCoordinates radar rnd).length = (blipJobs radar).length :=
    placeBlips_length radar rnd (blipJobs radar) [] 0
  have hj' : j < (blipJobs radar).length := by omega
  have hi' : i < (setBlipCoordinates radar rnd).length := by omega
  have hgetj : (setBlipCoordinates radar rnd).getD j (⟨0, 0⟩, 0)
      = generateBlipCoordinates radar
          (sectorStartAngle radar ((blipJobs radar).getD j defaultJob).1)
          (sectorEndAngle radar ((blipJobs radar).getD j defaultJob).1)
          ((blipJobs radar).getD j defaultJob).2.ring
          (((setBlipCoordinates radar rnd).take j).map Prod.fst)
          (rnd j) := by
    have h := placeBlips_getD radar rnd (⟨0, 0⟩, 0) (blipJobs radar) [] 0 j hj'
    rw [List.nil_append, Nat.zero_add] at h
    exact h
  have hmem : ((setBlipCoordinates radar rnd).getD i (⟨0, 0⟩, 0)).1
      ∈ ((setBlipCoordinates radar rnd).take j).map Prod.fst := by
    have hitake : i < ((setBlipCoordinates radar rnd).take j).length := by
      rw [List.length_take]
      omega
    have : ((setBlipCoordinates radar rnd).take j).getD i (⟨0, 0⟩, 0)
        = (setBlipCoordinates radar rnd).getD i (⟨0, 0⟩, 0) := by
      rw [List.getD_eq_getElem _ _ hitake, List.getD_eq_getElem _ _ hi', List.getElem_take]
    rw [← this]
    refine List.mem_map_of_mem Prod.fst ?_
    rw [List.getD_eq_getElem _ _ hitake]
    exact List.getElem_mem hitake
  rcases le_or_lt ((setBlipCoordinates radar rnd).getD j (⟨0, 0⟩, 0)).2 10 with hc | hc
  · left
    have hfree := generateBlip_free_of_count_le radar
      (sectorStartAngle radar ((blipJobs radar).getD j defaultJob).1)
      (sectorEndAngle radar ((blipJobs radar).getD j defaultJob).1)
      ((blipJobs radar).getD j defaultJob).2.ring
      (((setBlipCoordinates radar rnd).take j).map Prod.fst)
      (rnd j)
      (by rw [← hgetj]; exact hc)
    rw [← hgetj] at hfree
    rw [distanceBetweenPoints_comm]
    exact hfree _ hmem
  · by_cases hfr : coordinatesAreFree ((setBlipCoordinates radar rnd).getD j (⟨0, 0⟩, 0)).1
        (((setBlipCoordinates radar rnd).take j).map Prod.fst)
    · left
      rw [distanceBetweenPoints_comm]
      exact hfr _ hmem
    · right
      exact ⟨hc, hfr⟩

/-- C8's hypotheses hold at a concrete layout run placing two blips. -/
theorem placedBlipsSpacedOrExhaustedWitness :
    calculateBlipRadius * 2.1 <
        distanceBetweenPoints
          ((setBlipCoordinates twoBlipRadar (fun _ _ => (0, 0))).getD 0 (⟨0, 0⟩, 0)).1
          ((setBlipCoordinates twoBlipRadar (fun _ _ => (0, 0))).getD 1 (⟨0, 0⟩, 0)).1 ∨
      (10 < ((setBlipCoordinates twoBlipRadar (fun _ _ => (0, 0))).getD 1 (⟨0, 0⟩, 0)).2 ∧
        ¬ coordinatesAreFree
            ((setBlipCoordinates twoBlipRadar (fun _ _ => (0, 0))).getD 1 (⟨0, 0⟩, 0)).1
            (((setBlipCoordinates twoBlipRadar (fun _ _ => (0, 0))).take 1).map Prod.fst)) :=
  placedBlipsSpacedOrExhausted twoBlipRadar (fun _ _ => (0, 0)) 0 1 (by omega)
    (by unfold setBlipCoordinates; rw [placeBlips_length]; decide)

/-! ## C7 -/

/-- `sectors[v]` exists exactly when `v` is one of the sector names. -/
theorem find?_name_isSome_iff (l : List Sector) (v : Value) :
    (l.find? (fun s => decide (s.name = v))).isSome = true ↔ v ∈ l.map (fun s => s.name) := by
  rw [List.find?_isSome]
  constructor
  · rintro ⟨s, hs, hp⟩
    exact (of_decide_eq_true hp) ▸ List.mem_map_of_mem _ hs
  · intro hv
    rcases List.mem_map.mp hv with ⟨s, hs, hname⟩
    exact ⟨s, hs, decide_eq_true hname⟩

/-- `sectorBlipsOf` at a matching head sector. -/
theorem sectorBlipsOf_cons_pos (s : Sector) (rest : List Sector) (v : Value)
    (hs : s.name = v) : sectorBlipsOf (s :: rest) v = s.blips := by
  unfold sectorBlipsOf
  rw [List.find?_cons_of_pos]
  · rfl
  · exact decide_eq_true hs

/-- `sectorBlipsOf` skips a non-matching head sector. -/
theorem sectorBlipsOf_cons_neg (s : Sector) (rest : List Sector) (v : Value)
    (hs : ¬ s.name = v) : sectorBlipsOf (s :: rest) v = sectorBlipsOf rest v := by
  unfold sectorBlipsOf
  rw [List.find?_cons_of_neg]
  simp [hs]

/-- A non-matching head keeps `find?`-existence of a sector name. -/
theorem findName_cons_neg (s : Sector) (rest : List Sector) (v : Value)
    (hs : ¬ s.name = v) :
    ((s :: rest).find? (fun x => decide (x.name = v))).isSome
      = (rest.find? (fun x => decide (x.name = v))).isSome := by
  rw [List.find?_cons_of_neg]
  simp [hs]

/-- `sectorBlipsOf` at a cons, as an unconditional equation. -/
theorem sectorBlipsOf_cons (s : Sector) (rest : List Sector) (v : Value) :
    sectorBlipsOf (s :: rest) v
      = if s.name = v then s.blips else sectorBlipsOf rest v := by
  by_cases hs : s.name = v
  · rw [if_pos hs]
    exact sectorBlipsOf_cons_pos s rest v hs
  · rw [if_neg hs]
    exact sectorBlipsOf_cons_neg s rest v hs

/-- Appending a blip to the sector named `v` appends it to that sector's
blip list. -/
theorem sectorBlipsOf_addBlip_same (v : Value) (b : Blip) (l : List Sector)
    (h : (l.find? (fun s => decide (s.name = v))).isSome = true) :
    sectorBlipsOf (addBlipToSector v b l) v = sectorBlipsOf l v ++ [b] := by
  induction l with
  | nil => simp at h
  | cons s rest ih =>
    by_cases hs : s.name = v
    · rw [addBlipToSector, if_pos hs]
      simp [sectorBlipsOf_cons, hs]
    · rw [addBlipToSector, if_neg hs]
      simp only [sectorBlipsOf_cons, if_neg hs]
      exact ih (by rwa [findName_cons_neg _ _ _ hs] at h)

/-- Appending a blip to the sector named `v` leaves every other sector's
blips unchanged. -/
theorem sectorBlipsOf_addBlip_other (v w : Value) (b : Blip) (l : List Sector)
    (hw : w ≠ v) :
    sectorBlipsOf (addBlipToSector v b l) w = sectorBlipsOf l w := by
  induction l with
  | nil => rfl
  | cons s rest ih =>
    by_cases hs : s.name = v
    · have hsw : ¬ s.name = w := fun hh => hw (hh ▸ hs)
      rw [addBlipToSector, if_pos hs]
      simp [sectorBlipsOf_cons, hsw]
    · rw [addBlipToSector, if_neg hs]
      by_cases hsw : s.name = w
      · simp [sectorBlipsOf_cons, hsw]
      · simp only [sectorBlipsOf_cons, if_neg hsw]
        exact ih

/-- Appending a blip never changes the sector name sequence. -/
theorem names_addBlipToSector (v : Value) (b : Blip) (l : List Sector) :
    (addBlipToSector v b l).map (fun s => s.name) = l.map (fun s => s.name) := by
  induction l with
  | nil => rfl
  | cons s rest ih =>
    by_cases hs : s.name = v
    · rw [addBlipToSector, if_pos hs]
      rfl
    · rw [addBlipToSector, if_neg hs]
      simpa using ih

/-- A sector name absent from a list has no blips there. -/
theorem sectorBlipsOf_of_not_found (l : List Sector) (w : Value)
    (h : ¬ (l.find? (fun s => decide (s.name = w))).isSome = true) :
    sectorBlipsOf l w = [] := by
  have hnone : l.find? (fun s => decide (s.name = w)) = none :=
    Option.not_isSome_iff_eq_none.mp h
  unfold sectorBlipsOf
  rw [hnone]
  rfl

/-- A matching head makes `find?`-existence of a sector name true. -/
theorem findName_cons_pos (s : Sector) (rest : List Sector) (v : Value)
    (hs : s.name = v) :
    ((s :: rest).find? (fun x => decide (x.name = v))).isSome = true := by
  rw [List.find?_cons_of_pos]
  · rfl
  · exact decide_eq_true hs

/-- Appending a fresh sector at the end: blips of a name that was already
present are unchanged. -/
theorem sectorBlipsOf_append_old (l : List Sector) (t : Sector) (w : Value)
    (h : (l.find? (fun s => decide (s.name = w))).isSome = true) :
    sectorBlipsOf (l ++ [t]) w = sectorBlipsOf l w := by
  induction l with
  | nil => simp at h
  | cons s rest ih =>
    by_cases hs : s.name = w
    · rw [List.cons_append]
      simp [sectorBlipsOf_cons, hs]
    · rw [List.cons_append]
      simp only [sectorBlipsOf_cons, if_neg hs]
      exact ih (by rwa [findName_cons_neg _ _ _ hs] at h)

/-- Appending a fresh sector at the end: blips of an absent name come from
the new sector alone. -/
theorem sectorBlipsOf_append_new (l : List Sector) (t : Sector) (w : Value)
    (h : ¬ (l.find? (fun s => decide (s.name = w))).isSome = true) :
    sectorBlipsOf (l ++ [t]) w = sectorBlipsOf [t] w := by
  induction l with
  | nil => rfl
  | cons s rest ih =>
    by_cases hs : s.name = w
    · exact absurd (findName_cons_pos s rest w hs) h
    · rw [List.cons_append]
      rw [sectorBlipsOf_cons_neg _ _ _ hs]
      exact ih (by rwa [findName_cons_neg _ _ _ hs] at h)

/-- Processing one row appends its blip to its sector's list (creating
the sector when new) and to no other sector's. -/
theorem sectorBlipsOf_processRow (dv : DataView) (nI dI sI rI iI : Int)
    (st : TransformState) (row : List Value) (w : Value) :
    sectorBlipsOf (processRow dv nI dI sI rI iI st row).sectors w
      = sectorBlipsOf st.sectors w
        ++ (if rowGet row sI = w then [mkBlip nI dI rI iI row] else []) := by
  by_cases hfind :
      (st.sectors.find? (fun s => decide (s.name = rowGet row sI))).isSome = true
  · rw [processRow, if_pos hfind]
    by_cases hw : rowGet row sI = w
    · subst hw
      rw [if_pos rfl]
      exact sectorBlipsOf_addBlip_same _ _ _ hfind
    · rw [if_neg hw, List.append_nil]
      exact sectorBlipsOf_addBlip_other _ _ _ _ (fun h => hw h.symm)
  · have core : ∀ colour : String,
        sectorBlipsOf (st.sectors ++
            [⟨rowGet row sI, rowGet row sI, colour, [mkBlip nI dI rI iI row]⟩]) w
          = sectorBlipsOf st.sectors w
            ++ (if rowGet row sI = w then [mkBlip nI dI rI iI row] else []) := by
      intro colour
      by_cases hw : rowGet row sI = w
      · subst hw
        rw [sectorBlipsOf_append_new _ _ _ hfind,
          sectorBlipsOf_cons_pos _ _ _ rfl,
          sectorBlipsOf_of_not_found _ _ hfind, if_pos rfl, List.nil_append]
      · by_cases h2 : (st.sectors.find? (fun s => decide (s.name = w))).isSome = true
        · rw [sectorBlipsOf_append_old _ _ _ h2, if_neg hw, List.append_nil]
        · rw [sectorBlipsOf_append_new _ _ _ h2,
            sectorBlipsOf_cons_neg _ _ _ hw,
            sectorBlipsOf_of_not_found _ _ h2, if_neg hw, List.append_nil]
          rfl
    rw [processRow, if_neg hfind]
    rcases hsc : storedColour dv (rowGet row sI) with _ | c
    · simp only [hsc]
      exact core _
    · simp only [hsc]
      exact core _

/-- Processing one row appends its sector name to the discovery order
exactly when the name is new. -/
theorem names_processRow (dv : DataView) (nI dI sI rI iI : Int)
    (st : TransformState) (row : List Value) :
    (processRow dv nI dI sI rI iI st row).sectors.map (fun s => s.name)
      = st.sectors.map (fun s => s.name)
        ++ (if rowGet row sI ∈ st.sectors.map (fun s => s.name) then []
            else [rowGet row sI]) := by
  by_cases hfind :
      (st.sectors.find? (fun s => decide (s.name = rowGet row sI))).isSome = true
  · rw [processRow, if_pos hfind, if_pos ((find?_name_isSome_iff _ _).mp hfind),
      List.append_nil]
    exact names_addBlipToSector _ _ _
  · have hmem : rowGet row sI ∉ st.sectors.map (fun s => s.name) := by
      intro hmem
      exact hfind ((find?_name_isSome_iff _ _).mpr hmem)
    rw [processRow, if_neg hfind, if_neg hmem]
    rcases hsc : storedColour dv (rowGet row sI) with _ | c
    · simp only [hsc]
      simp
    · simp only [hsc]
      simp

/-- `firstSeenAux` only consults which values `seen` holds, not their
arrangement. -/
theorem firstSeenAux_congr (s1 s2 : List Value) (h : ∀ x, x ∈ s1 ↔ x ∈ s2)
    (l : List Value) : firstSeenAux s1 l = firstSeenAux s2 l := by
  induction l generalizing s1 s2 with
  | nil => rfl
  | cons v rest ih =>
    by_cases hv : v ∈ s1
    · rw [firstSeenAux, if_pos hv, firstSeenAux, if_pos ((h v).mp hv)]
      exact ih s1 s2 h
    · rw [firstSeenAux, if_neg hv, firstSeenAux, if_neg (fun hh => hv ((h v).mpr hh))]
      refine congrArg _ (ih (v :: s1) (v :: s2) ?_)
      intro x
      simp only [List.mem_cons]
      exact or_congr Iff.rfl (h x)

/-- Folding the row loop appends each row's blip to its sector, in row
order. -/
theorem foldl_processRow_blips (dv : DataView) (nI dI sI rI iI : Int)
    (rows : List (List Value)) (st : TransformState) (w : Value) :
    sectorBlipsOf (rows.foldl (processRow dv nI dI sI rI iI) st).sectors w
      = sectorBlipsOf st.sectors w
        ++ (rows.filter (fun r => decide (rowGet r sI = w))).map (mkBlip nI dI rI iI) := by
  induction rows generalizing st with
  | nil => simp
  | cons r rest ih =>
    rw [List.foldl_cons, ih, sectorBlipsOf_processRow, List.append_assoc]
    by_cases hw : rowGet r sI = w
    · simp [List.filter_cons, hw]
    · simp [List.filter_cons, hw]

/-- Folding the row loop discovers sectors in first-appearance order. -/
theorem foldl_processRow_names (dv : DataView) (nI dI sI rI iI : Int)
    (rows : List (List Value)) (st : TransformState) :
    (rows.foldl (processRow dv nI dI sI rI iI) st).sectors.map (fun s => s.name)
      = st.sectors.map (fun s => s.name)
        ++ firstSeenAux (st.sectors.map (fun s => s.name))
            (rows.map (fun r => rowGet r sI)) := by
  induction rows generalizing st with
  | nil => simp [firstSeenAux]
  | cons r rest ih =>
    rw [List.foldl_cons, ih, names_processRow, List.map_cons, firstSeenAux]
    by_cases hmem : rowGet r sI ∈ st.sectors.map (fun s => s.name)
    · rw [if_pos hmem, if_pos hmem, List.append_nil]
    · rw [if_neg hmem, if_neg hmem, List.append_assoc, List.singleton_append]
      refine congrArg _ (congrArg _ ?_)
      refine (firstSeenAux_congr _ _ ?_ _)
      intro x
      simp [or_comm]

/-- `sortRows` sorts by ring order, ascending. -/
theorem sortRows_sorted (rI : Int) (rows : List (List Value)) :
    List.Pairwise (fun a b => ringOrderKey rI a ≤ ringOrderKey rI b) (sortRows rI rows) := by
  haveI h1 : IsTotal (List Value) (fun a b => ringOrderKey rI a ≤ ringOrderKey rI b) :=
    ⟨fun a b => Nat.le_total _ _⟩
  haveI h2 : IsTrans (List Value) (fun a b => ringOrderKey rI a ≤ ringOrderKey rI b) :=
    ⟨fun _ _ _ => Nat.le_trans⟩
  exact List.sorted_insertionSort _ rows

/-- `sortRows` permutes the rows. -/
theorem sortRows_perm (rI : Int) (rows : List (List Value)) :
    List.Perm (sortRows rI rows) rows :=
  List.perm_insertionSort _ rows

/-- `sortRows` is stable: the rows of any one ring-order key keep their
original relative order. -/
theorem sortRows_stable (rI : Int) (rows : List (List Value)) (k : Nat) :
    (sortRows rI rows).filter (fun r => decide (ringOrderKey rI r = k))
      = rows.filter (fun r => decide (ringOrderKey rI r = k)) := by
  have hpw : (rows.filter (fun r => decide (ringOrderKey rI r = k))).Pairwise
      (fun a b => ringOrderKey rI a ≤ ringOrderKey rI b) := by
    refine List.pairwise_of_forall_mem_list ?_
    intro a ha b hb
    have hka : ringOrderKey rI a = k := of_decide_eq_true (List.mem_filter.mp ha).2
    have hkb : ringOrderKey rI b = k := of_decide_eq_true (List.mem_filter.mp hb).2
    rw [hka, hkb]
  have hsub : List.Sublist (rows.filter (fun r => decide (ringOrderKey rI r = k)))
      (sortRows rI rows) :=
    List.sublist_insertionSort hpw (List.filter_sublist rows)
  have hsub2 : List.Sublist (rows.filter (fun r => decide (ringOrderKey rI r = k)))
      ((sortRows rI rows).filter (fun r => decide (ringOrderKey rI r = k))) := by
    have h2 := hsub.filter (fun r => decide (ringOrderKey rI r = k))
    rwa [List.filter_eq_self.mpr (fun a ha => (List.mem_filter.mp ha).2)] at h2
  have hperm : List.Perm
      ((sortRows rI rows).filter (fun r => decide (ringOrderKey rI r = k)))
      (rows.filter (fun r => decide (ringOrderKey rI r = k))) :=
    (sortRows_perm rI rows).filter _
  exact (hsub2.eq_of_length hperm.length_eq.symm).symm

/-- The empty sector list has no blips anywhere. -/
theorem sectorBlipsOf_nil (w : Value) : sectorBlipsOf [] w = [] := rfl

/-- `firstSeenAux` emits no duplicates and nothing already seen. -/
theorem firstSeenAux_nodup (l : List Value) : ∀ seen : List Value,
    (firstSeenAux seen l).Nodup ∧ ∀ x ∈ firstSeenAux seen l, x ∉ seen := by
  induction l with
  | nil =>
    intro seen
    exact ⟨List.nodup_nil, by simp [firstSeenAux]⟩
  | cons v rest ih =>
    intro seen
    by_cases hv : v ∈ seen
    · rw [firstSeenAux, if_pos hv]
      exact ih seen
    · rw [firstSeenAux, if_neg hv]
      obtain ⟨hnd, hns⟩ := ih (v :: seen)
      refine ⟨List.nodup_cons.mpr
        ⟨fun hmem => (hns v hmem) (List.mem_cons_self v seen), hnd⟩, ?_⟩
      intro x hx
      rcases List.mem_cons.mp hx with rfl | hx'
      · exact hv
      · exact fun hxs => (hns x hx') (List.mem_cons_of_mem _ hxs)

/-- When the sector names are duplicate-free, two members with the same
name are the same sector. -/
theorem mem_name_eq_of_nodup (l : List Sector) (hnd : (l.map (fun s => s.name)).Nodup)
    (s x : Sector) (hs : s ∈ l) (hx : x ∈ l) (hname : x.name = s.name) : x = s := by
  induction l with
  | nil => cases hs
  | cons y t ih =>
    rw [List.map_cons, List.nodup_cons] at hnd
    rcases List.mem_cons.mp hs with rfl | hs'
    · rcases List.mem_cons.mp hx with rfl | hx'
      · rfl
      · exfalso
        apply hnd.1
        rw [← hname]
        exact List.mem_map_of_mem _ hx'
    · rcases List.mem_cons.mp hx with rfl | hx'
      · exfalso
        apply hnd.1
        rw [hname]
        exact List.mem_map_of_mem _ hs'
      · exact ih hnd.2 hs' hx'

/-- `find?` returns the unique element satisfying the predicate. -/
theorem find?_eq_some_of_unique (p : Sector → Bool) (l : List Sector) (s : Sector)
    (hs : s ∈ l) (hps : p s = true) (huniq : ∀ x ∈ l, p x = true → x = s) :
    l.find? p = some s := by
  induction l with
  | nil => cases hs
  | cons y t ih =>
    by_cases hy : p y = true
    · rw [List.find?_cons_of_pos _ hy, huniq y (List.mem_cons_self y t) hy]
    · rw [List.find?_cons_of_neg _ (by simpa using hy)]
      rcases List.mem_cons.mp hs with rfl | hs'
      · exact absurd hps hy
      · exact ih hs' (fun x hx hpx => huniq x (List.mem_cons_of_mem _ hx) hpx)

/-- With duplicate-free sector names, `sectorBlipsOf` only depends on
which sectors are present, not on their order. -/
theorem sectorBlipsOf_perm (l l' : List Sector) (hperm : List.Perm l l')
    (hnd : (l.map (fun s => s.name)).Nodup) (w : Value) :
    sectorBlipsOf l' w = sectorBlipsOf l w := by
  by_cases hex : ∃ s ∈ l, s.name = w
  · rcases hex with ⟨s, hs, hw⟩
    have hnd' : (l'.map (fun s => s.name)).Nodup := ((hperm.map _).nodup_iff).mp hnd
    have h1 : l.find? (fun x => decide (x.name = w)) = some s :=
      find?_eq_some_of_unique _ l s hs (decide_eq_true hw)
        (fun x hx hpx => mem_name_eq_of_nodup l hnd s x hs hx
          (by rw [of_decide_eq_true hpx, hw]))
    have h2 : l'.find? (fun x => decide (x.name = w)) = some s :=
      find?_eq_some_of_unique _ l' s (hperm.mem_iff.mp hs) (decide_eq_true hw)
        (fun x hx hpx => mem_name_eq_of_nodup l' hnd' s x (hperm.mem_iff.mp hs) hx
          (by rw [of_decide_eq_true hpx, hw]))
    unfold sectorBlipsOf
    rw [h1, h2]
  · have h1 : l.find? (fun x => decide (x.name = w)) = none :=
      List.find?_eq_none.mpr (fun x hx => by
        simp only [decide_eq_true_eq]
        exact fun hh => hex ⟨x, hx, hh⟩)
    have h2 : l'.find? (fun x => decide (x.name = w)) = none :=
      List.find?_eq_none.mpr (fun x hx => by
        simp only [decide_eq_true_eq]
        exact fun hh => hex ⟨x, hperm.mem_iff.mpr hx, hh⟩)
    unfold sectorBlipsOf
    rw [h1, h2]

/-- The `for...in` reorder is a permutation of the sector list. -/
theorem forInReorder_perm (l : List Sector) : List.Perm (forInReorder l) l := by
  unfold forInReorder
  exact ((List.perm_insertionSort _ _).append_right _).trans
    (List.filter_append_perm _ l)

/-- Filtering by a predicate on the name commutes with taking names. -/
theorem map_name_filter (l : List Sector) (p : Value → Bool) :
    (l.filter (fun s => p s.name)).map (fun s => s.name)
      = (l.map (fun s => s.name)).filter p := by
  induction l with
  | nil => rfl
  | cons s rest ih =>
    cases hp : p s.name <;> simp [List.filter_cons, hp, ih]

/-- Reordering sectors the `for...in` way, seen through their names, is
`forInKeys` of the name list. -/
theorem map_name_forInReorder (l : List Sector) :
    (forInReorder l).map (fun s => s.name) = forInKeys (l.map (fun s => s.name)) := by
  unfold forInReorder forInKeys
  rw [List.map_append]
  congr 1
  · have h := List.map_insertionSort
      (fun (a b : Sector) => (jsKeyToArrayIndex a.name).getD 0 ≤ (jsKeyToArrayIndex b.name).getD 0)
      (fun (a b : Value) => (jsKeyToArrayIndex a).getD 0 ≤ (jsKeyToArrayIndex b).getD 0)
      (fun s => s.name)
      (l.filter (fun s => (jsKeyToArrayIndex s.name).isSome))
      (fun a _ b _ => Iff.rfl)
    rw [h, map_name_filter l (fun v => (jsKeyToArrayIndex v).isSome)]
  · exact map_name_filter l (fun v => ! (jsKeyToArrayIndex v).isSome)

/-- C7 as amended: the transform stable-sorts the rows by ring order
ascending, then scans them, discovering sectors in first appearance order
(in the sorted sequence) and grouping all rows of one sector value into
one Sector whose blips appear in the sorted order; but the order of the
sectors in the Radar is the `for...in` key order of the `sectors` object
(`forInKeys` of the discovery order): sector names that are canonical
array-index strings come first, ascending numerically, and only the
remaining sectors keep first-appearance order.  For non-integer-like
names the two orders coincide; in particular the worked example rows
A/X/Accelerate, B/X/Pause, C/Y/Progress yield exactly two sectors, X
first with blips A then B, then Y, whose functional angle assignment
spans `[0, π)` and `[π, 2π)` respectively. -/
theorem transformSortsAndGroups :
    (∀ dv : DataView,
      (dv.rows.all fun r =>
        (ringMap (rowGet r (jsIndexOf (columnMapOf dv) "ring"))).isSome) = true →
      ∃ radar : Radar,
        transformData dv = Except.ok radar ∧
        List.Pairwise
          (fun a b => ringOrderKey (jsIndexOf (columnMapOf dv) "ring") a
            ≤ ringOrderKey (jsIndexOf (columnMapOf dv) "ring") b)
          (sortRows (jsIndexOf (columnMapOf dv) "ring") dv.rows) ∧
        List.Perm (sortRows (jsIndexOf (columnMapOf dv) "ring") dv.rows) dv.rows ∧
        (∀ k : Nat,
          (sortRows (jsIndexOf (columnMapOf dv) "ring") dv.rows).filter
              (fun r => decide (ringOrderKey (jsIndexOf (columnMapOf dv) "ring") r = k))
            = dv.rows.filter
              (fun r => decide (ringOrderKey (jsIndexOf (columnMapOf dv) "ring") r = k))) ∧
        radar.sectors.map (fun s => s.name)
          = forInKeys (firstSeenAux []
              ((sortRows (jsIndexOf (columnMapOf dv) "ring") dv.rows).map
                (fun r => rowGet r (jsIndexOf (columnMapOf dv) "sector")))) ∧
        (∀ w : Value,
          sectorBlipsOf radar.sectors w
            = ((sortRows (jsIndexOf (columnMapOf dv) "ring") dv.rows).filter
                (fun r => decide (rowGet r (jsIndexOf (columnMapOf dv) "sector") = w))).map
                (mkBlip (jsIndexOf (columnMapOf dv) "name")
                  (jsIndexOf (columnMapOf dv) "description")
                  (jsIndexOf (columnMapOf dv) "ring")
                  (jsIndexOf (columnMapOf dv) "isNew")))) ∧
    transformData exampleDataView = Except.ok exampleRadar ∧
    sectorStartAngle exampleRadar 0 = 0 ∧
    sectorEndAngle exampleRadar 0 = Real.pi ∧
    sectorStartAngle exampleRadar 1 = Real.pi ∧
    sectorEndAngle exampleRadar 1 = 2 * Real.pi := by
  refine ⟨?_, by decide, ?_, ?_, ?_, ?_⟩
  · intro dv hall
    have htrans : transformData dv = Except.ok
        { sectors := forInReorder
            (((sortRows (jsIndexOf (columnMapOf dv) "ring") dv.rows).foldl
              (processRow dv (jsIndexOf (columnMapOf dv) "name")
                (jsIndexOf (columnMapOf dv) "description") (jsIndexOf (columnMapOf dv) "sector")
                (jsIndexOf (columnMapOf dv) "ring") (jsIndexOf (columnMapOf dv) "isNew"))
              ⟨[], 0⟩).sectors),
          rings := fixedRings } := by
      simp only [transformData]
      rw [if_pos hall]
    have hnames : (((sortRows (jsIndexOf (columnMapOf dv) "ring") dv.rows).foldl
          (processRow dv (jsIndexOf (columnMapOf dv) "name")
            (jsIndexOf (columnMapOf dv) "description") (jsIndexOf (columnMapOf dv) "sector")
            (jsIndexOf (columnMapOf dv) "ring") (jsIndexOf (columnMapOf dv) "isNew"))
          ⟨[], 0⟩).sectors).map (fun s => s.name)
        = firstSeenAux []
            ((sortRows (jsIndexOf (columnMapOf dv) "ring") dv.rows).map
              (fun r => rowGet r (jsIndexOf (columnMapOf dv) "sector"))) := by
      simpa using foldl_processRow_names dv
        (jsIndexOf (columnMapOf dv) "name") (jsIndexOf (columnMapOf dv) "description")
        (jsIndexOf (columnMapOf dv) "sector") (jsIndexOf (columnMapOf dv) "ring")
        (jsIndexOf (columnMapOf dv) "isNew")
        (sortRows (jsIndexOf (columnMapOf dv) "ring") dv.rows) ⟨[], 0⟩
    have hnd : ((((sortRows (jsIndexOf (columnMapOf dv) "ring") dv.rows).foldl
          (processRow dv (jsIndexOf (columnMapOf dv) "name")
            (jsIndexOf (columnMapOf dv) "description") (jsIndexOf (columnMapOf dv) "sector")
            (jsIndexOf (columnMapOf dv) "ring") (jsIndexOf (columnMapOf dv) "isNew"))
          ⟨[], 0⟩).sectors).map (fun s => s.name)).Nodup := by
      rw [hnames]
      exact (firstSeenAux_nodup _ []).1
    refine ⟨_, htrans, sortRows_sorted _ _, sortRows_perm _ _,
      fun k => sortRows_stable _ _ k, ?_, ?_⟩
    · rw [map_name_forInReorder, hnames]
    · intro w
      rw [sectorBlipsOf_perm _ _ (forInReorder_perm _).symm hnd w]
      simpa [sectorBlipsOf_nil] using foldl_processRow_blips dv
        (jsIndexOf (columnMapOf dv) "name") (jsIndexOf (columnMapOf dv) "description")
        (jsIndexOf (columnMapOf dv) "sector") (jsIndexOf (columnMapOf dv) "ring")
        (jsIndexOf (columnMapOf dv) "isNew")
        (sortRows (jsIndexOf (columnMapOf dv) "ring") dv.rows) ⟨[], 0⟩ w
  · simp [sectorStartAngle, exampleRadar]
  · show sectorEndAngle exampleRadar 0 = Real.pi
    simp [sectorEndAngle, exampleRadar]
  · show sectorStartAngle exampleRadar 1 = Real.pi
    simp [sectorStartAngle, exampleRadar]
  · show sectorEndAngle exampleRadar 1 = 2 * Real.pi
    simp [sectorEndAngle, exampleRadar]
    exact Or.inl (by norm_num)

/-- C7 counterexample: with the integer-like sector names "10" (first
seen) and "2", the radar's sector order is ascending numeric — "2" before
"10" — not the first-appearance order ["10", "2"] the claim asserts:
JS `for...in` enumerates array-index-like object keys numerically first. -/
theorem numericSectorOrderNotFirstAppearance :
    transformData numericSectorDataView = Except.ok numericSectorRadar ∧
    numericSectorRadar.sectors.map (fun s => s.name) = [Value.str "2", Value.str "10"] ∧
    firstSeenAux []
        ((sortRows (jsIndexOf (columnMapOf numericSectorDataView) "ring")
            numericSectorDataView.rows).map
          (fun r => rowGet r (jsIndexOf (columnMapOf numericSectorDataView) "sector")))
      = [Value.str "10", Value.str "2"] ∧
    numericSectorRadar.sectors.map (fun s => s.name)
      ≠ firstSeenAux []
          ((sortRows (jsIndexOf (columnMapOf numericSectorDataView) "ring")
              numericSectorDataView.rows).map
            (fun r => rowGet r (jsIndexOf (columnMapOf numericSectorDataView) "sector"))) := by
  refine ⟨by decide, by decide, by decide, by decide⟩

/-- C3 counterexample: in a 32-sector radar, sector 0 spans
`[0, π/16)` — reachable data, one row per each of 32 distinct sector
values — and the claimed angular range `[start + π/16, end − π/16]` is
empty, so the coordinates `generateBlipCoordinates` returns for it lie in
no such polar form: the `π/16` margins invert the candidate range in any
sector narrower than `π/8`. -/
theorem blipAngleRangeEmptyInNarrowSector :
    ¬ ∃ distance angle : ℝ,
        sectorStartAngle thirtyTwoSectorRadar 0 + Real.pi / 16 ≤ angle ∧
        angle ≤ sectorEndAngle thirtyTwoSectorRadar 0 - Real.pi / 16 ∧
        (generateBlipCoordinates thirtyTwoSectorRadar
            (sectorStartAngle thirtyTwoSectorRadar 0) (sectorEndAngle thirtyTwoSectorRadar 0)
            accelerateRing [] (fun _ => (1 / 2, 1 / 2))).1
          = polarToCartesian ⟨distance, angle⟩ := by
  rintro ⟨d, a, h1, h2, -⟩
  have hpi := Real.pi_pos
  have hs : sectorStartAngle thirtyTwoSectorRadar 0 = 0 := by
    simp [sectorStartAngle]
  have he : sectorEndAngle thirtyTwoSectorRadar 0 = 2 * Real.pi / 32 := by
    simp [sectorEndAngle, thirtyTwoSectorRadar]
  rw [hs] at h1
  rw [he] at h2
  linarith

end RadarVisual
